import Mathlib

/-!
Verification of the ai-proxy gateway core against its specification.

The Rust sources are shallowly embedded: JSON values become an inductive
type, `serde_json` maps become association lists, machine integers become
`Nat`/`Int`, fallible operations return `Option`/`Except`, and wall-clock
instants become explicit `Nat`/`Int` parameters.  Each definition is a
direct translation of the named function from the repository; spec-side
definitions (suffixed `_claimed` or `_amended`) instead follow the words
of the specification and are compared with the source translations.
-/

namespace AiProxy

/-! ## JSON value model

`serde_json::Value` with objects as association lists.  Numbers are
modelled as `Int`: every number appearing in the verified code paths is a
`u64`/`i64`.  Insertion into an object replaces the value of an existing
key in place and appends a fresh key at the end; only key lookup, never
field order, is used in the theorems below.
-/

inductive Json where
  | null
  | bool (b : Bool)
  | num (n : Int)
  | str (s : String)
  | arr (items : List Json)
  | obj (fields : List (String × Json))
deriving Repr

/-- Key lookup in an object's field list (first match wins, as in a map). -/
def lookupField : List (String × Json) → String → Option Json
  | [], _ => none
  | (k', v) :: rest, k => if k' = k then some v else lookupField rest k

/-- `map.insert`: replace an existing key's value in place, else append. -/
def objInsert : List (String × Json) → String → Json → List (String × Json)
  | [], k, v => [(k, v)]
  | (k', v') :: rest, k, v =>
      if k' = k then (k, v) :: rest else (k', v') :: objInsert rest k v

/-- Remove a key from an object's field list (`map.remove`).  A JSON
map holds at most one entry per key, so dropping every matching entry
coincides with map removal on map-representable values while keeping the
operation total on the inductive. -/
def objRemove (l : List (String × Json)) (k : String) : List (String × Json) :=
  l.filter (fun kv => kv.1 ≠ k)

/-- `value.get(k)`: field lookup, `none` on non-objects. -/
def Json.getKey : Json → String → Option Json
  | .obj fields, k => lookupField fields k
  | _, _ => none

/-- `value[k] = v` on an object; identity on non-objects. -/
def Json.setKey : Json → String → Json → Json
  | .obj fields, k, v => .obj (objInsert fields k v)
  | j, _, _ => j

/-- `value.as_str()`. -/
def Json.asStr : Json → Option String
  | .str s => some s
  | _ => none

/-- `value.as_u64()`. -/
def Json.asU64 : Json → Option Nat
  | .num n => if 0 ≤ n then some n.toNat else none
  | _ => none

/-- `value.as_array()`. -/
def Json.asArr : Json → Option (List Json)
  | .arr items => some items
  | _ => none

/-- `value.is_object()`. -/
def Json.isObj : Json → Bool
  | .obj _ => true
  | _ => false

/-! ## Glob matcher — `src/crates/core/src/glob.rs`

`glob_match` is a two-pointer loop with backtracking on `*`.  The loop is
rendered with a fuel argument; one unit of fuel is spent per iteration.
The source loop terminates because the lexicographic measure
(text length minus the `*`-backtrack position, text length minus the text
pointer, pattern length minus the pattern pointer) decreases on every
iteration, so the number of iterations is below
`(t+2) * (t+2) * (p+2)` for pattern length `p` and text length `t`; the
fuel supplied is exactly that bound and is therefore never exhausted.
Matching is byte-oriented in the source; chars stand in for bytes here
(all inputs considered are ASCII).
-/

/-- The `while tx < text.len()` loop of `glob_match`, plus the trailing
`*` consumption: state is the pattern index `px`, text index `tx`, and
the position pair of the last `*` (`star_px`, `star_tx`) when one was
seen. -/
def globLoop (p t : List Char) : Nat → Nat → Nat → Option (Nat × Nat) → Bool
  | 0, _, _, _ => false
  | fuel + 1, px, tx, star =>
    if tx < t.length then
      if px < p.length && (t.get? tx == p.get? px || p.get? px == some '?') then
        globLoop p t fuel (px + 1) (tx + 1) star
      else if px < p.length && p.get? px == some '*' then
        globLoop p t fuel (px + 1) tx (some (px, tx))
      else
        match star with
        | some (spx, stx) => globLoop p t fuel (spx + 1) (stx + 1) (some (spx, stx + 1))
        | none => false
    else
      -- consume trailing stars in the pattern, then require px == pattern.len()
      (p.drop px).all (fun c => c = '*')

/-- `glob_match(pattern, text)` from `src/crates/core/src/glob.rs`. -/
def glob_match (pattern text : String) : Bool :=
  let p := pattern.toList
  let t := text.toList
  globLoop p t ((t.length + 2) * (t.length + 2) * (p.length + 2)) 0 0 none

example : glob_match "*" "anything" = true := by decide
example : glob_match "" "" = true := by decide
example : glob_match "" "x" = false := by decide
example : glob_match "a*b" "ab" = true := by decide
example : glob_match "gemini-*" "gemini-2.5-pro" = true := by decide
example : glob_match "*flash*" "xflashy" = true := by decide
example : glob_match "exact" "exactx" = false := by decide

/-! ## Credentials — `src/crates/core/src/provider.rs`

`AuthRecord` keeps the fields the verified operations read; fields only
used by the HTTP layer (base URL, proxy, static headers, cloak config,
wire API, display name) are omitted.  The source field `prefix` is a Lean
keyword and is rendered as `pfx`.  `Instant` timestamps are `Nat`.
-/

inductive Format where
  | openAI
  | claude
  | gemini
  | openAICompat
deriving DecidableEq, Repr

/-- `Format::as_str`. -/
def Format.as_str : Format → String
  | .openAI => "openai"
  | .claude => "claude"
  | .gemini => "gemini"
  | .openAICompat => "openai-compat"

structure ModelEntry where
  id : String
  aliasName : Option String
deriving DecidableEq, Repr

structure AuthRecord where
  id : String
  provider : Format
  api_key : String
  models : List ModelEntry
  excluded_models : List String
  pfx : Option String
  disabled : Bool
  cooldown_until : Option Nat
deriving DecidableEq, Repr

/-- `AuthRecord::strip_prefix`: strip `pfx` when the model name starts
with it, otherwise return the name unchanged (the source's
`strip_prefix(prefix).unwrap_or(model)`). -/
def AuthRecord.stripPfx (a : AuthRecord) (model : String) : String :=
  match a.pfx with
  | some p => if p.isPrefixOf model then model.drop p.length else model
  | none => model

/-- `AuthRecord::is_model_excluded`. -/
def AuthRecord.is_model_excluded (a : AuthRecord) (model : String) : Bool :=
  a.excluded_models.any (fun pattern => glob_match pattern model)

/-- `AuthRecord::supports_model`. -/
def AuthRecord.supports_model (a : AuthRecord) (model : String) : Bool :=
  let effective_model := a.stripPfx model
  if a.models.isEmpty then
    !(a.is_model_excluded effective_model)
  else
    let found := a.models.any (fun m =>
      glob_match m.id effective_model ||
        (match m.aliasName with
         | some al => glob_match al effective_model
         | none => false))
    found && !(a.is_model_excluded effective_model)

/-- The first-match loop of `AuthRecord::resolve_model_id`. -/
def resolveModelLoop : List ModelEntry → String → Option String
  | [], _ => none
  | m :: rest, effective =>
      if m.aliasName = some effective then some m.id
      else if m.id = effective then some m.id
      else resolveModelLoop rest effective

/-- `AuthRecord::resolve_model_id`. -/
def AuthRecord.resolve_model_id (a : AuthRecord) (model : String) : String :=
  let effective := a.stripPfx model
  match resolveModelLoop a.models effective with
  | some real => real
  | none => effective

/-- `AuthRecord::is_available` at instant `now`. -/
def AuthRecord.is_available (a : AuthRecord) (now : Nat) : Bool :=
  if a.disabled then false
  else
    match a.cooldown_until with
    | some u => if now < u then false else true
    | none => true

/-! ## Claim C1 — `supports_model` characterization -/

/-- Shared by the C1 spec-side definitions: the post-prefix name matches
at least one model entry by id or alias via glob. -/
def modelListMatches (a : AuthRecord) (effective : String) : Bool :=
  a.models.any (fun m =>
    glob_match m.id effective ||
      (match m.aliasName with
       | some al => glob_match al effective
       | none => false))

/-- C1 as claimed: `supports_model` additionally requires a configured
prefix to strip cleanly (the model name must start with it). -/
def supports_model_claimed (a : AuthRecord) (model : String) : Bool :=
  match a.pfx with
  | some p =>
      p.isPrefixOf model &&
        ((a.models.isEmpty || modelListMatches a (model.drop p.length)) &&
          !(a.is_model_excluded (model.drop p.length)))
  | none =>
      (a.models.isEmpty || modelListMatches a model) &&
        !(a.is_model_excluded model)

/-- C1 amended: the effective name is the post-prefix name when the model
starts with the configured prefix and the unaltered name otherwise;
`supports_model` is then the model-list match (or empty model list)
together with non-exclusion. -/
def supports_model_amended (a : AuthRecord) (model : String) : Bool :=
  let effective :=
    match a.pfx with
    | some p => if p.isPrefixOf model then model.drop p.length else model
    | none => model
  (a.models.isEmpty || modelListMatches a effective) &&
    !(a.is_model_excluded effective)

/-- A credential with a configured prefix, an empty model list and no
exclusions: `supports_model` accepts a model name that does not carry the
prefix, which the claim says it must reject. -/
def credC1 : AuthRecord :=
  { id := "c1", provider := .claude, api_key := "k", models := [],
    excluded_models := [], pfx := some "p/", disabled := false,
    cooldown_until := none }

/-- C1 counterexample: for a credential with prefix `p/`, empty model
list and no exclusions, the code accepts the prefixless model name `x`,
while the claim (prefix must strip cleanly) rejects it. -/
theorem C1_counterexample :
    credC1.supports_model "x" = true ∧ supports_model_claimed credC1 "x" = false := by
  constructor <;> rfl

/-- C1 (amended): `supports_model(m)` returns true iff the model-list
match (or empty model list) and the exclusion check hold for the
effective name, where the effective name is the post-prefix name when
`m` starts with the configured prefix and `m` itself otherwise. -/
theorem C1_supports_model_amended (a : AuthRecord) (model : String) :
    a.supports_model model = supports_model_amended a model := by
  unfold AuthRecord.supports_model supports_model_amended modelListMatches
  cases h : a.models with
  | nil => simp [AuthRecord.stripPfx, h]
  | cons m rest => simp [AuthRecord.stripPfx, h]

/-! ## Credential router — `src/crates/provider/src/routing.rs`

The router's `RwLock`/`AtomicUsize` state becomes an explicit
`RouterState` record threaded through `pick`.  `fetch_add` returns the
previous counter value, so a fresh counter contributes index 0;
`update_from_config` rebuilds the per-format credential lists from the
config, carrying cooldowns over by matching `api_key` within the same
format.  `uuid::Uuid::new_v4` (used only for the freshly generated
credential id) is modelled by a fixed placeholder string: no verified
property depends on the generated id.
-/

inductive RoutingStrategy where
  | roundRobin
  | fillFirst
deriving DecidableEq, Repr

structure RouterState where
  credentials : Format → List AuthRecord
  counters : List (String × Nat)
  strategy : RoutingStrategy

def lookupCounter : List (String × Nat) → String → Option Nat
  | [], _ => none
  | (k', n) :: rest, k => if k' = k then some n else lookupCounter rest k

def setCounter : List (String × Nat) → String → Nat → List (String × Nat)
  | [], k, n => [(k, n)]
  | (k', n') :: rest, k, n =>
      if k' = k then (k, n) :: rest else (k', n') :: setCounter rest k n

/-- `CredentialRouter::pick` (routing.rs 25-60), returning the picked
credential and the updated state (the round-robin counter bump). -/
def pick (st : RouterState) (provider : Format) (model : String)
    (tried : List String) (now : Nat) : Option AuthRecord × RouterState :=
  let entries := st.credentials provider
  let candidates := entries.filter (fun a =>
    a.is_available now && a.supports_model model && !(tried.contains a.id))
  if candidates.isEmpty then (none, st)
  else
    match st.strategy with
    | .fillFirst => (candidates.head?, st)
    | .roundRobin =>
        let key := provider.as_str ++ ":" ++ model
        let idx := (lookupCounter st.counters key).getD 0
        (candidates.get? (idx % candidates.length),
         { st with counters := setCounter st.counters key (idx + 1) })

/-- `n` successive `pick` calls with the same arguments, collecting the
returned credentials. -/
def pickSeq (st : RouterState) (provider : Format) (model : String)
    (tried : List String) (now : Nat) : Nat → List (Option AuthRecord)
  | 0 => []
  | n + 1 =>
      let (r, st') := pick st provider model tried now
      r :: pickSeq st' provider model tried now n

structure ProviderKeyEntry where
  api_key : String
  models : List ModelEntry
  excluded_models : List String
  pfx : Option String
  disabled : Bool
deriving DecidableEq, Repr

structure Config where
  claude_api_key : List ProviderKeyEntry
  openai_api_key : List ProviderKeyEntry
  gemini_api_key : List ProviderKeyEntry
  openai_compatibility : List ProviderKeyEntry
  strategy : RoutingStrategy
deriving DecidableEq, Repr

/-- The per-format entry list of the config (routing.rs 81-102). -/
def Config.entriesFor : Config → Format → List ProviderKeyEntry
  | cfg, .claude => cfg.claude_api_key
  | cfg, .openAI => cfg.openai_api_key
  | cfg, .gemini => cfg.gemini_api_key
  | cfg, .openAICompat => cfg.openai_compatibility

/-- `build_auth_record` (routing.rs 190-222): a fresh credential starts
with no cooldown. -/
def build_auth_record (entry : ProviderKeyEntry) (format : Format) : AuthRecord :=
  { id := "uuid-v4", provider := format, api_key := entry.api_key,
    models := entry.models, excluded_models := entry.excluded_models,
    pfx := entry.pfx, disabled := entry.disabled, cooldown_until := none }

/-- The cooldown carry-over step of `update_from_config`
(routing.rs 106-116): each freshly built credential takes the
cooldown of the first pre-existing same-format credential holding
the same `api_key`. -/
def preserveCooldowns (old_entries new_entries : List AuthRecord) : List AuthRecord :=
  new_entries.map (fun na =>
    match old_entries.find? (fun o => o.api_key == na.api_key) with
    | some oa => { na with cooldown_until := oa.cooldown_until }
    | none => na)

/-- `CredentialRouter::update_from_config` (routing.rs 77-124), as the
resulting per-format credential lists.  A format with no config entries
yields the empty list, observably equal to the source's map lacking the
key. -/
def update_from_config (old : Format → List AuthRecord) (config : Config) :
    Format → List AuthRecord :=
  fun format =>
    preserveCooldowns (old format)
      ((config.entriesFor format).map (fun e => build_auth_record e format))

/-! ## Claim C5 — cooldown preservation across config reload -/

lemma preserveCooldowns_mem (old_entries new_entries : List AuthRecord)
    (c : AuthRecord) (hc : c ∈ preserveCooldowns old_entries new_entries) :
    ∃ na ∈ new_entries,
      c = (match old_entries.find? (fun o => o.api_key == na.api_key) with
           | some oa => { na with cooldown_until := oa.cooldown_until }
           | none => na) := by
  unfold preserveCooldowns at hc
  obtain ⟨na, hna, heq⟩ := List.mem_map.mp hc
  exact ⟨na, hna, heq.symm⟩

/-- C5: every credential in the rebuilt pool that shares `(format,
api_key)` with a credential existing before the reload carries that
prior credential's `cooldown_until`. -/
theorem C5_cooldown_preserved (old : Format → List AuthRecord) (config : Config)
    (format : Format) (c : AuthRecord)
    (hc : c ∈ update_from_config old config format)
    (hex : ∃ o ∈ old format, o.api_key = c.api_key) :
    ∃ o ∈ old format, o.api_key = c.api_key ∧ c.cooldown_until = o.cooldown_until := by
  unfold update_from_config at hc
  obtain ⟨na, _, hceq⟩ := preserveCooldowns_mem _ _ _ hc
  cases hfind : (old format).find? (fun o => o.api_key == na.api_key) with
  | some oa =>
      rw [hfind] at hceq
      refine ⟨oa, List.mem_of_find?_eq_some hfind, ?_, ?_⟩
      · have := List.find?_some hfind
        have hoa : oa.api_key = na.api_key := by simpa using this
        rw [hoa, hceq]
      · rw [hceq]
  | none =>
      rw [hfind] at hceq
      obtain ⟨o, ho, hkey⟩ := hex
      have := List.find?_eq_none.mp hfind o ho
      rw [hceq] at hkey
      simp [hkey] at this

/-- C5 witness data: one Claude credential with key `K1` cooling until
instant 60, reloaded from a config holding the same key. -/
def oldPoolC5 : Format → List AuthRecord
  | .claude => [{ id := "old-id", provider := .claude, api_key := "K1",
                  models := [], excluded_models := [], pfx := none,
                  disabled := false, cooldown_until := some 60 }]
  | _ => []

def configC5 : Config :=
  { claude_api_key := [{ api_key := "K1", models := [], excluded_models := [],
                         pfx := none, disabled := false }],
    openai_api_key := [], gemini_api_key := [], openai_compatibility := [],
    strategy := .roundRobin }

/-- The credential the C5 reload produces for key `K1`. -/
def reloadedCredC5 : AuthRecord :=
  { id := "uuid-v4", provider := .claude, api_key := "K1",
    models := [], excluded_models := [], pfx := none,
    disabled := false, cooldown_until := some 60 }

/-- C5 witness: the reloaded `K1` credential keeps the cooldown 60. -/
theorem C5_cooldown_preserved_witness :
    ∃ o ∈ oldPoolC5 .claude,
      o.api_key = reloadedCredC5.api_key ∧
      reloadedCredC5.cooldown_until = o.cooldown_until :=
  C5_cooldown_preserved oldPoolC5 configC5 .claude reloadedCredC5
    (by decide) (by decide)

/-! ## Claim C6 — round-robin rotation -/

def credA : AuthRecord :=
  { id := "A", provider := .claude, api_key := "kA",
    models := [{ id := "claude-sonnet-4", aliasName := none }],
    excluded_models := [], pfx := none, disabled := false, cooldown_until := none }

def credB : AuthRecord :=
  { credA with id := "B", api_key := "kB" }

def credC : AuthRecord :=
  { credA with id := "C", api_key := "kC" }

def routerC6 : RouterState :=
  { credentials := fun f => match f with
      | .claude => [credA, credB, credC]
      | _ => [],
    counters := [],
    strategy := .roundRobin }

/-- C6: under round-robin, three available Claude credentials A, B, C all
supporting `claude-sonnet-4` are returned in the order A, B, C, A, B, C
by six successive picks with an empty tried list. -/
theorem C6_round_robin :
    (pickSeq routerC6 .claude "claude-sonnet-4" [] 0 6).map
        (fun r => r.map AuthRecord.id) =
      [some "A", some "B", some "C", some "A", some "B", some "C"] := by
  decide

/-! ## Dispatch loop error handling — `src/crates/server/src/dispatch.rs`

`ProxyError` keeps the variants the dispatch loop distinguishes.
`handle_retry_error` (dispatch.rs 711-746) only decides whether to call
`mark_unavailable` and with what duration; that decision is modelled as
an `Option Nat`.  The dispatch loop itself is modelled for the standard
non-stream path with a single provider and the fill-first strategy
(`dispatch_sim` below): `attempt in 0..max_retries` each picks the first
untried available credential, returns on success, and on failure marks
the credential tried, applies the cooldown decision and stores the error
as `last_error`; after the loop `last_error` (or `NoCredentials`) is
returned (dispatch.rs 189-556).  Each credential's executor outcome is a
fixed `Except` value.
-/

inductive ProxyError where
  | upstream (status : Nat) (body : String) (retry_after_secs : Option Nat)
  | network (msg : String)
  | translation (msg : String)
  | internal (msg : String)
  | noCredentials (provider : String) (model : String)
deriving DecidableEq, Repr

structure RetryConfig where
  max_retries : Nat
  max_backoff_secs : Nat
  cooldown_429_secs : Nat
  cooldown_5xx_secs : Nat
  cooldown_network_secs : Nat
deriving DecidableEq, Repr

/-- The cooldown decision of `handle_retry_error` (dispatch.rs 711-746):
`some d` means `mark_unavailable(auth_id, d seconds)` is called, `none`
means no cooldown is placed. -/
def handle_retry_error_cooldown (error : ProxyError) (retry_cfg : RetryConfig) :
    Option Nat :=
  match error with
  | .upstream status _ retry_after_secs =>
      if status = 429 then
        some (retry_after_secs.getD retry_cfg.cooldown_429_secs)
      else if 500 ≤ status ∧ status ≤ 599 then
        some (retry_after_secs.getD retry_cfg.cooldown_5xx_secs)
      else none
  | .network _ => some retry_cfg.cooldown_network_secs
  | _ => none

/-- One credential of the dispatch simulation: its record plus the fixed
outcome of `executor.execute` on it. -/
structure SimCred where
  auth : AuthRecord
  outcome : Except ProxyError String
deriving Repr

inductive SimResult where
  | success (payload : String)
  | failure (error : ProxyError)
deriving DecidableEq, Repr

structure SimOutcome where
  result : SimResult
  cooldowns : List (String × Nat)
deriving DecidableEq, Repr

/-- `CredentialRouter::pick` under fill-first: the first untried
available credential supporting the model. -/
def simPick (creds : List SimCred) (model : String) (tried : List String)
    (now : Nat) : Option SimCred :=
  creds.find? (fun c =>
    c.auth.is_available now && c.auth.supports_model model &&
      !(tried.contains c.auth.id))

/-- The `for attempt in 0..max_retries` loop of `dispatch` on the
standard non-stream path (dispatch.rs 189-194 and 490-556), with a
single provider: argument 4 counts the remaining attempts, then the
tried list, accumulated `mark_unavailable` calls, and `last_error`. -/
def dispatchSimLoop (creds : List SimCred) (model : String)
    (retry_cfg : RetryConfig) (now : Nat) :
    Nat → List String → List (String × Nat) → Option ProxyError → SimOutcome
  | 0, _, cds, lastErr =>
      { result := .failure (lastErr.getD (.noCredentials "all" model)),
        cooldowns := cds }
  | attemptsLeft + 1, tried, cds, lastErr =>
      match simPick creds model tried now with
      | none => dispatchSimLoop creds model retry_cfg now attemptsLeft tried cds lastErr
      | some c =>
          match c.outcome with
          | .ok payload => { result := .success payload, cooldowns := cds }
          | .error e =>
              let cds' :=
                match handle_retry_error_cooldown e retry_cfg with
                | some d => cds ++ [(c.auth.id, d)]
                | none => cds
              dispatchSimLoop creds model retry_cfg now attemptsLeft
                (tried ++ [c.auth.id]) cds' (some e)

/-- `dispatch` on the standard non-stream path, single model, single
provider (dispatch.rs 133-556). -/
def dispatch_sim (creds : List SimCred) (model : String)
    (retry_cfg : RetryConfig) (now : Nat) : SimOutcome :=
  dispatchSimLoop creds model retry_cfg now retry_cfg.max_retries [] [] none

/-! ## Claim C2 — classification of executor errors -/

/-- The claim's retryable class: 429, 5xx and network errors. -/
def retryable_claimed : ProxyError → Bool
  | .upstream status _ _ => status == 429 || (500 ≤ status && status ≤ 599)
  | .network _ => true
  | _ => false

def retryCfgC2 : RetryConfig :=
  { max_retries := 3, max_backoff_secs := 30, cooldown_429_secs := 60,
    cooldown_5xx_secs := 30, cooldown_network_secs := 15 }

/-- Credential A: upstream replies 400 (a non-429 4xx). -/
def simCredA400 : SimCred :=
  { auth := { id := "A", provider := .openAICompat, api_key := "kA",
              models := [], excluded_models := [], pfx := none,
              disabled := false, cooldown_until := none },
    outcome := .error (.upstream 400 "bad request" none) }

/-- Credential B: upstream succeeds. -/
def simCredBok : SimCred :=
  { auth := { id := "B", provider := .openAICompat, api_key := "kB",
              models := [], excluded_models := [], pfx := none,
              disabled := false, cooldown_until := none },
    outcome := .ok "okB" }

/-- C2 counterexample: with credential A failing with upstream status 400
and credential B succeeding, the dispatch loop does not surface the 400
to the caller — it marks A tried and continues, so the caller receives
B's success.  Under the claim (4xx other than 429 surfaced immediately)
the result would have been the 400 failure. -/
theorem C2_counterexample :
    dispatch_sim [simCredA400, simCredBok] "m" retryCfgC2 0 =
      { result := .success "okB", cooldowns := [] } ∧
    (dispatch_sim [simCredA400, simCredBok] "m" retryCfgC2 0).result ≠
      .failure (.upstream 400 "bad request" none) := by
  constructor
  · decide
  · decide

/-- C2 (amended): a non-429 upstream 4xx places no credential in
cooldown, but is not surfaced immediately — the loop marks the
credential tried and keeps retrying with other credentials, and only
429, 5xx and network errors trigger a cooldown.  First conjunct: the
cooldown decision is `some` exactly for the claim's retryable class.
Second conjunct: the 400-then-success run returns the success with no
cooldown placed. -/
theorem C2_error_classification_amended :
    (∀ (e : ProxyError) (cfg : RetryConfig),
        (handle_retry_error_cooldown e cfg).isSome = retryable_claimed e) ∧
    dispatch_sim [simCredA400, simCredBok] "m" retryCfgC2 0 =
      { result := .success "okB", cooldowns := [] } := by
  constructor
  · intro e cfg
    cases e with
    | upstream status body retry_after_secs =>
        by_cases h429 : status = 429
        · simp [handle_retry_error_cooldown, retryable_claimed, h429]
        · by_cases h5 : 500 ≤ status
          · by_cases h599 : status ≤ 599
            · simp [handle_retry_error_cooldown, retryable_claimed, h429, h5, h599]
            · simp [handle_retry_error_cooldown, retryable_claimed, h429, h5, h599]
          · have hand : ¬(500 ≤ status ∧ status ≤ 599) := fun hc => h5 hc.1
            simp [handle_retry_error_cooldown, retryable_claimed, h429, h5, hand]
    | network msg => simp [handle_retry_error_cooldown, retryable_claimed]
    | translation msg => simp [handle_retry_error_cooldown, retryable_claimed]
    | internal msg => simp [handle_retry_error_cooldown, retryable_claimed]
    | noCredentials p m => simp [handle_retry_error_cooldown, retryable_claimed]
  · decide

/-! ## Claim C4 — model-field rewrite for the fallback chain -/

/-- Raw request bytes for `rewrite_model_in_body`: either bytes that
parse as a JSON value or bytes that do not (carried opaquely). -/
inductive Body where
  | jsonBytes (j : Json)
  | rawBytes (s : String)

/-- `serde_json::from_slice::<Value>`. -/
def parseJsonBody : Body → Option Json
  | .jsonBytes j => some j
  | .rawBytes _ => none

/-- `rewrite_model_in_body` (dispatch.rs 561-574).  Serialization of a
`Value` does not fail, matching `serde_json::to_vec` on a `Value`. -/
def rewrite_model_in_body (body : Body) (new_model : String) : Body :=
  match parseJsonBody body with
  | some j =>
      match j with
      | .obj fields =>
          .jsonBytes (.obj (objInsert fields "model" (.str new_model)))
      | _ => body
  | none => body

lemma lookupField_objInsert_self (l : List (String × Json)) (k : String) (v : Json) :
    lookupField (objInsert l k v) k = some v := by
  induction l with
  | nil => simp [objInsert, lookupField]
  | cons hd tl ih =>
      obtain ⟨k', v'⟩ := hd
      by_cases h : k' = k
      · simp [objInsert, lookupField, h]
      · simp [objInsert, lookupField, h, ih]

lemma lookupField_objInsert_ne (l : List (String × Json)) (k k' : String) (v : Json)
    (h : k' ≠ k) : lookupField (objInsert l k v) k' = lookupField l k' := by
  induction l with
  | nil => simp [objInsert, lookupField, Ne.symm h]
  | cons hd tl ih =>
      obtain ⟨k₀, v₀⟩ := hd
      by_cases h0 : k₀ = k
      · subst h0
        simp [objInsert, lookupField, Ne.symm h]
      · by_cases h1 : k₀ = k'
        · subst h1
          simp [objInsert, lookupField, h0]
        · simp [objInsert, lookupField, h0, h1, ih]

/-- C4 counterexample: on the body `{}` (no `model` key) the rewrite
inserts the key, so the bytes change; under the claim (`model`
overwritten only if it already exists) they would be returned
unchanged. -/
theorem C4_counterexample :
    rewrite_model_in_body (Body.jsonBytes (Json.obj [])) "claude-3" =
      Body.jsonBytes (Json.obj [("model", Json.str "claude-3")]) ∧
    Json.obj [("model", Json.str "claude-3")] ≠ Json.obj [] := by
  constructor
  · rfl
  · intro h
    simpa [Json.getKey, lookupField] using congrArg (fun j => j.getKey "model") h

/-- C4 (amended): when the body parses as a JSON object, the `model` key
is set unconditionally — inserted when absent, overwritten when present
— and every other key keeps its value; when the body does not parse as a
JSON object, the original bytes are returned unchanged. -/
theorem C4_rewrite_model_amended (body : Body) (m : String) :
    (∀ fields, body = .jsonBytes (.obj fields) →
        ∃ fields', rewrite_model_in_body body m = .jsonBytes (.obj fields') ∧
          lookupField fields' "model" = some (.str m) ∧
          ∀ k, k ≠ "model" → lookupField fields' k = lookupField fields k) ∧
    ((∀ fields, body ≠ .jsonBytes (.obj fields)) →
        rewrite_model_in_body body m = body) := by
  constructor
  · intro fields hbody
    subst hbody
    refine ⟨objInsert fields "model" (.str m), rfl, ?_, ?_⟩
    · exact lookupField_objInsert_self fields "model" (.str m)
    · intro k hk
      exact lookupField_objInsert_ne fields "model" k (.str m) hk
  · intro hne
    cases body with
    | jsonBytes j =>
        cases j with
        | obj fields => exact absurd rfl (hne fields)
        | null => rfl
        | bool b => rfl
        | num n => rfl
        | str s => rfl
        | arr items => rfl
    | rawBytes s => rfl

/-- C4 witness: on the body with fields `a: 1` and `model: "x"`, the
rewrite overwrites `model` and keeps `a`. -/
theorem C4_rewrite_model_amended_witness :
    ∃ fields',
      rewrite_model_in_body
          (Body.jsonBytes (Json.obj [("a", Json.num 1), ("model", Json.str "x")]))
          "claude-3" =
        Body.jsonBytes (Json.obj fields') ∧
      lookupField fields' "model" = some (Json.str "claude-3") ∧
      ∀ k, k ≠ "model" →
        lookupField fields' k =
          lookupField [("a", Json.num 1), ("model", Json.str "x")] k :=
  (C4_rewrite_model_amended
      (Body.jsonBytes (Json.obj [("a", Json.num 1), ("model", Json.str "x")]))
      "claude-3").1
    [("a", Json.num 1), ("model", Json.str "x")] rfl

/-! ## SSE decoder — `src/crates/provider/src/sse.rs`

`parse_event_block` iterates the lines of one event block, tracking the
current event name and the accumulated data segments.  Rust's
`str::lines` splits on `\n`, drops the final empty piece produced by a
trailing newline, and strips one trailing `\r` per line; the body of the
loop additionally strips leading `\r` with `trim_start_matches('\r')`.
`trim_start`/`trim` strip Unicode whitespace; `Char.isWhitespace` agrees
on the ASCII inputs SSE carries.
-/

/-- Rust `str::lines`, char by char: split at `\n`, strip one `\r`
before each split point, keep a final piece only when non-empty. -/
def rustLinesAux : List Char → List Char → List String
  | [], acc => if acc.isEmpty then [] else [String.mk acc.reverse]
  | '\n' :: rest, acc =>
      (if acc.head? = some '\r' then String.mk acc.tail.reverse
       else String.mk acc.reverse) :: rustLinesAux rest []
  | c :: rest, acc => rustLinesAux rest (c :: acc)

/-- Rust `str::lines`. -/
def rustLines (s : String) : List String :=
  rustLinesAux s.toList []

/-- Rust `trim_start_matches('\r')`. -/
def trimStartCr (s : String) : String :=
  String.mk (s.toList.dropWhile (fun c => c = '\r'))

/-- Rust `str::trim_start`. -/
def rustTrimStart (s : String) : String :=
  String.mk (s.toList.dropWhile Char.isWhitespace)

/-- Rust `str::trim`. -/
def rustTrim (s : String) : String :=
  String.mk
    (((s.toList.dropWhile Char.isWhitespace).reverse.dropWhile
        Char.isWhitespace).reverse)

structure SseEvent where
  event : Option String
  data : String
deriving DecidableEq, Repr

/-- The chars of a block line after `trim_start_matches('\r')`. -/
def lineChars (rawLine : String) : List Char :=
  (trimStartCr rawLine).toList

/-- One iteration of the `parse_event_block` line loop (sse.rs 106-120):
state is the current event name and the accumulated data segments.
`id:`/`retry:` lines and unrecognized lines alike leave the state
unchanged. -/
def parseEventLine (st : Option String × List String) (rawLine : String) :
    Option String × List String :=
  if [':'].isPrefixOf (lineChars rawLine) then st
  else if "event:".toList.isPrefixOf (lineChars rawLine) then
    (some (rustTrim (String.mk ((lineChars rawLine).drop 6))), st.2)
  else if "data:".toList.isPrefixOf (lineChars rawLine) then
    (st.1, st.2 ++ [rustTrimStart (String.mk ((lineChars rawLine).drop 5))])
  else st

/-- The final event assembly of `parse_event_block` (sse.rs 122-131). -/
def mkSseEvent : Option String × List String → Option SseEvent
  | (event_type, data_lines) =>
      if data_lines.isEmpty then none
      else some { event := event_type, data := String.intercalate "\n" data_lines }

/-- `parse_event_block` (sse.rs 102-132). -/
def parse_event_block (block : String) : Option SseEvent :=
  mkSseEvent ((rustLines block).foldl parseEventLine (none, []))

example : parse_event_block "data: line1\ndata: line2" =
    some { event := none, data := "line1\nline2" } := by decide
example : parse_event_block ": this is a comment" = none := by decide
example : parse_event_block "event: message_start\ndata: x" =
    some { event := some "message_start", data := "x" } := by decide

/-! ## Claim C3 — data-line space stripping and joining -/

/-- C3 counterexample: the line `data:  x` (two spaces) contributes the
segment `x` — `trim_start` removes all leading whitespace — while the
claim (a single leading space stripped exactly once) demands ` x`. -/
theorem C3_counterexample :
    parse_event_block "data:  x" = some { event := none, data := "x" } ∧
    "x" ≠ " x" := by
  constructor
  · decide
  · decide

/-- The data segment a single block line contributes under the amended
reading: the remainder after `data:` with all leading whitespace
stripped; comment, `event:` and other lines contribute none. -/
def dataSegmentOfLine (rawLine : String) : Option String :=
  if [':'].isPrefixOf (lineChars rawLine) then none
  else if "event:".toList.isPrefixOf (lineChars rawLine) then none
  else if "data:".toList.isPrefixOf (lineChars rawLine) then
    some (rustTrimStart (String.mk ((lineChars rawLine).drop 5)))
  else none

lemma parseEventLine_snd (st : Option String × List String) (rawLine : String) :
    (parseEventLine st rawLine).2 = st.2 ++ (dataSegmentOfLine rawLine).toList := by
  unfold parseEventLine dataSegmentOfLine
  split_ifs <;> simp

lemma foldl_parseEventLine_snd (lines : List String)
    (st : Option String × List String) :
    (lines.foldl parseEventLine st).2 =
      st.2 ++ lines.filterMap dataSegmentOfLine := by
  induction lines generalizing st with
  | nil => simp
  | cons l rest ih =>
      rw [List.foldl_cons, ih, parseEventLine_snd, List.filterMap_cons]
      cases h : dataSegmentOfLine l <;> simp [h]

/-- C3 (amended): each `data:` line of a block contributes one data
segment equal to the line remainder after the colon with all leading
whitespace stripped (not just a single space), and the segments are
joined with a single newline; a block with no data line yields no
event. -/
theorem C3_data_lines_amended (block : String) :
    (parse_event_block block).map SseEvent.data =
      (if (rustLines block).filterMap dataSegmentOfLine = [] then none
       else some (String.intercalate "\n"
          ((rustLines block).filterMap dataSegmentOfLine))) := by
  have hsnd := foldl_parseEventLine_snd (rustLines block) (none, [])
  simp only [List.nil_append] at hsnd
  unfold parse_event_block
  rcases hpr : (rustLines block).foldl parseEventLine (none, []) with ⟨et, ds⟩
  rw [hpr] at hsnd
  have hds : ds = (rustLines block).filterMap dataSegmentOfLine := by
    simpa using hsnd
  subst hds
  by_cases h : (rustLines block).filterMap dataSegmentOfLine = []
  · simp [mkSseEvent, h]
  · simp [mkSseEvent, h, List.isEmpty_iff]

/-! ## Payload rules engine — `src/crates/core/src/payload.rs`

Dotted paths are split into parts with Rust's `split('.')` semantics.
`set_nested` walks the parts, creating missing intermediate objects and
aborting (without setting) when a non-object stands in the way;
`remove_nested` deletes the final key when the whole chain of parents
exists.  The in-place mutation through `&mut` pointers becomes a rebuild
of the traversed spine via `objInsert`.
-/

/-- Rust `str::split('.')`: all pieces, empty ones included. -/
def splitDotsAux : List Char → List Char → List String
  | [], acc => [String.mk acc.reverse]
  | c :: rest, acc =>
      if c = '.' then String.mk acc.reverse :: splitDotsAux rest []
      else splitDotsAux rest (c :: acc)

def splitDots (s : String) : List String :=
  splitDotsAux s.toList []

lemma splitDotsAux_ne_nil (cs : List Char) (acc : List Char) :
    splitDotsAux cs acc ≠ [] := by
  induction cs generalizing acc with
  | nil => simp [splitDotsAux]
  | cons c rest ih =>
      unfold splitDotsAux
      split_ifs
      · simp
      · exact ih _

lemma splitDots_ne_nil (s : String) : splitDots s ≠ [] :=
  splitDotsAux_ne_nil s.toList []

structure ModelMatcher where
  name : String
  protocol : Option String
deriving DecidableEq, Repr

structure PayloadRule where
  models : List ModelMatcher
  params : List (String × Json)

structure FilterRule where
  models : List ModelMatcher
  params : List String
deriving DecidableEq, Repr

structure PayloadConfig where
  default : List PayloadRule
  override : List PayloadRule
  filter : List FilterRule

/-- Rust `str::eq_ignore_ascii_case`. -/
def eqIgnoreAsciiCase (a b : String) : Bool :=
  a.toList.map Char.toLower == b.toList.map Char.toLower

/-- `matches_rule` (payload.rs 38-47). -/
def matches_rule (matchers : List ModelMatcher) (model : String)
    (protocol : Option String) : Bool :=
  matchers.any (fun m =>
    let name_match := glob_match m.name model
    let protocol_match :=
      match m.protocol with
      | none => true
      | some p =>
          match protocol with
          | some actual => eqIgnoreAsciiCase actual p
          | none => false
    name_match && protocol_match)

/-- `set_nested` (payload.rs 51-79) over the split path parts, returning
the updated value and whether the value was actually set. -/
def setNestedParts (value : Json) (only_if_missing : Bool) :
    Json → List String → Json × Bool
  | v, [] => (v, false)
  | v, [part] =>
      match v with
      | .obj fields =>
          if only_if_missing && (lookupField fields part).isSome then (v, false)
          else (.obj (objInsert fields part value), true)
      | _ => (v, false)
  | v, part :: part' :: rest =>
      match v with
      | .obj fields =>
          let child :=
            match lookupField fields part with
            | some c => c
            | none => .obj []
          let r := setNestedParts value only_if_missing child (part' :: rest)
          (.obj (objInsert fields part r.1), r.2)
      | _ => (v, false)

/-- `set_nested` (payload.rs 51-79). -/
def set_nested (root : Json) (path : String) (value : Json)
    (only_if_missing : Bool) : Json × Bool :=
  setNestedParts value only_if_missing root (splitDots path)

/-- `remove_nested` (payload.rs 82-98) over the split path parts. -/
def removeNestedParts : Json → List String → Json
  | v, [] => v
  | v, [part] =>
      match v with
      | .obj fields => .obj (objRemove fields part)
      | _ => v
  | v, part :: part' :: rest =>
      match v with
      | .obj fields =>
          match lookupField fields part with
          | some child =>
              .obj (objInsert fields part (removeNestedParts child (part' :: rest)))
          | none => v
      | _ => v

/-- `remove_nested` (payload.rs 82-98). -/
def remove_nested (root : Json) (path : String) : Json :=
  removeNestedParts root (splitDots path)

/-- `apply_payload_rules` (payload.rs 102-134): defaults, then
overrides, then filters. -/
def applyRuleParams (only_if_missing : Bool) (body : Json)
    (params : List (String × Json)) : Json :=
  params.foldl (fun b pv => (set_nested b pv.1 pv.2 only_if_missing).1) body

def apply_payload_rules (body : Json) (config : PayloadConfig) (model : String)
    (protocol : Option String) : Json :=
  let body1 := config.default.foldl
    (fun b rule =>
      if matches_rule rule.models model protocol then
        applyRuleParams true b rule.params
      else b) body
  let body2 := config.override.foldl
    (fun b rule =>
      if matches_rule rule.models model protocol then
        applyRuleParams false b rule.params
      else b) body1
  config.filter.foldl
    (fun b rule =>
      if matches_rule rule.models model protocol then
        rule.params.foldl (fun b' p => remove_nested b' p) b
      else b) body2

/-! ## Claim C7 — defaults, overrides, filters -/

/-- Value lookup along split path parts. -/
def getPathParts : Json → List String → Option Json
  | v, [] => some v
  | v, part :: rest => (v.getKey part).bind (fun child => getPathParts child rest)

/-- Value lookup at a dotted path. -/
def getPath (v : Json) (path : String) : Option Json :=
  getPathParts v (splitDots path)

lemma getPathParts_cons (v : Json) (part : String) (rest : List String) :
    getPathParts v (part :: rest) =
      (v.getKey part).bind (fun child => getPathParts child rest) := rfl

lemma getKey_obj (fields : List (String × Json)) (k : String) :
    Json.getKey (Json.obj fields) k = lookupField fields k := rfl

/-- Whether `set_nested` can reach the final key: every intermediate
component already present is an object (missing ones are created). -/
def pathSettable : Json → List String → Bool
  | _, [] => false
  | .obj _, [_] => true
  | .obj fields, part :: part' :: rest =>
      match lookupField fields part with
      | some child => pathSettable child (part' :: rest)
      | none => true
  | _, _ => false

lemma objInsert_self (l : List (String × Json)) (k : String) (v : Json)
    (h : lookupField l k = some v) : objInsert l k v = l := by
  induction l with
  | nil => simp [lookupField] at h
  | cons hd tl ih =>
      obtain ⟨k₀, v₀⟩ := hd
      by_cases h0 : k₀ = k
      · subst h0
        simp [lookupField] at h
        simp [objInsert, h]
      · simp only [lookupField, if_neg h0] at h
        simp [objInsert, h0, ih h]

lemma lookupField_objRemove_self (l : List (String × Json)) (k : String) :
    lookupField (objRemove l k) k = none := by
  induction l with
  | nil => simp [objRemove, lookupField]
  | cons hd tl ih =>
      obtain ⟨k₀, v₀⟩ := hd
      by_cases h0 : k₀ = k
      · simpa [objRemove, h0] using ih
      · simpa [objRemove, lookupField, h0] using ih

lemma pathSettable_fresh (part : String) (rest : List String) :
    pathSettable (Json.obj []) (part :: rest) = true := by
  cases rest with
  | nil => rfl
  | cons part' rest' => simp [pathSettable, lookupField]

/-- Defaults never overwrite: if a value exists at the path, the
`only_if_missing` write is a no-op reporting `false`. -/
lemma setNested_missing_noop (parts : List String) (v value w : Json)
    (h : getPathParts v parts = some w) :
    setNestedParts value true v parts = (v, false) := by
  induction parts generalizing v w with
  | nil => rfl
  | cons part rest ih =>
      rw [getPathParts_cons] at h
      cases rest with
      | nil =>
          cases v with
          | obj fields =>
              rw [getKey_obj] at h
              cases hlk : lookupField fields part with
              | none =>
                  rw [hlk] at h
                  exact absurd (show (none : Option Json) = some w from h) (by simp)
              | some c => simp [setNestedParts, hlk]
          | null => rfl
          | bool b => rfl
          | num n => rfl
          | str s => rfl
          | arr items => rfl
      | cons part' rest' =>
          cases v with
          | obj fields =>
              rw [getKey_obj] at h
              cases hlk : lookupField fields part with
              | none =>
                  rw [hlk] at h
                  exact absurd (show (none : Option Json) = some w from h) (by simp)
              | some child =>
                  rw [hlk] at h
                  have h' : getPathParts child (part' :: rest') = some w := h
                  have hrec := ih child w h'
                  simp [setNestedParts, hlk, hrec,
                    objInsert_self fields part child hlk]
          | null => rfl
          | bool b => rfl
          | num n => rfl
          | str s => rfl
          | arr items => rfl

/-- A non-settable path leaves the body unchanged and reports `false`. -/
lemma setNested_unsettable_noop (parts : List String) (v value : Json)
    (h : pathSettable v parts = false) :
    setNestedParts value false v parts = (v, false) := by
  induction parts generalizing v with
  | nil => rfl
  | cons part rest ih =>
      cases rest with
      | nil =>
          cases v with
          | obj fields => simp [pathSettable] at h
          | null => rfl
          | bool b => rfl
          | num n => rfl
          | str s => rfl
          | arr items => rfl
      | cons part' rest' =>
          cases v with
          | obj fields =>
              simp only [pathSettable] at h
              cases hlk : lookupField fields part with
              | none =>
                  rw [hlk] at h
                  exact absurd (show true = false from h) (by simp)
              | some child =>
                  rw [hlk] at h
                  have h' : pathSettable child (part' :: rest') = false := h
                  have hrec := ih child h'
                  simp [setNestedParts, hlk, hrec,
                    objInsert_self fields part child hlk]
          | null => rfl
          | bool b => rfl
          | num n => rfl
          | str s => rfl
          | arr items => rfl

/-- A settable path is actually set (overrides). -/
lemma setNested_settable_sets (parts : List String) (v value : Json)
    (h : pathSettable v parts = true) :
    (setNestedParts value false v parts).2 = true ∧
    getPathParts (setNestedParts value false v parts).1 parts = some value := by
  induction parts generalizing v with
  | nil => simp [pathSettable] at h
  | cons part rest ih =>
      cases rest with
      | nil =>
          cases v with
          | obj fields =>
              refine ⟨rfl, ?_⟩
              simp [setNestedParts, getPathParts, Json.getKey,
                lookupField_objInsert_self]
          | null => simp [pathSettable] at h
          | bool b => simp [pathSettable] at h
          | num n => simp [pathSettable] at h
          | str s => simp [pathSettable] at h
          | arr items => simp [pathSettable] at h
      | cons part' rest' =>
          cases v with
          | obj fields =>
              simp only [pathSettable] at h
              cases hlk : lookupField fields part with
              | none =>
                  have hrec := ih (Json.obj []) (pathSettable_fresh part' rest')
                  refine ⟨by simp [setNestedParts, hlk, hrec.1], ?_⟩
                  have hstep :
                      (setNestedParts value false (Json.obj fields)
                          (part :: part' :: rest')).1 =
                        Json.obj (objInsert fields part
                          (setNestedParts value false (Json.obj [])
                            (part' :: rest')).1) := by
                    simp [setNestedParts, hlk]
                  rw [hstep, getPathParts_cons, getKey_obj,
                    lookupField_objInsert_self]
                  exact hrec.2
              | some child =>
                  rw [hlk] at h
                  have h' : pathSettable child (part' :: rest') = true := h
                  have hrec := ih child h'
                  refine ⟨by simp [setNestedParts, hlk, hrec.1], ?_⟩
                  have hstep :
                      (setNestedParts value false (Json.obj fields)
                          (part :: part' :: rest')).1 =
                        Json.obj (objInsert fields part
                          (setNestedParts value false child (part' :: rest')).1) := by
                    simp [setNestedParts, hlk]
                  rw [hstep, getPathParts_cons, getKey_obj,
                    lookupField_objInsert_self]
                  exact hrec.2
          | null => simp [pathSettable] at h
          | bool b => simp [pathSettable] at h
          | num n => simp [pathSettable] at h
          | str s => simp [pathSettable] at h
          | arr items => simp [pathSettable] at h

/-- Filters: after `remove_nested`, nothing remains at the path. -/
lemma removeNested_removes (parts : List String) (v : Json)
    (hne : parts ≠ []) :
    getPathParts (removeNestedParts v parts) parts = none := by
  induction parts generalizing v with
  | nil => exact absurd rfl hne
  | cons part rest ih =>
      cases rest with
      | nil =>
          cases v with
          | obj fields =>
              simp [removeNestedParts, getPathParts, Json.getKey,
                lookupField_objRemove_self]
          | null => rfl
          | bool b => rfl
          | num n => rfl
          | str s => rfl
          | arr items => rfl
      | cons part' rest' =>
          cases v with
          | obj fields =>
              cases hlk : lookupField fields part with
              | none =>
                  have hstep :
                      removeNestedParts (Json.obj fields) (part :: part' :: rest') =
                        Json.obj fields := by
                    simp [removeNestedParts, hlk]
                  rw [hstep, getPathParts_cons, getKey_obj, hlk]
                  rfl
              | some child =>
                  have hstep :
                      removeNestedParts (Json.obj fields) (part :: part' :: rest') =
                        Json.obj (objInsert fields part
                          (removeNestedParts child (part' :: rest'))) := by
                    simp [removeNestedParts, hlk]
                  rw [hstep, getPathParts_cons, getKey_obj,
                    lookupField_objInsert_self]
                  exact ih child (by simp)
          | null => rfl
          | bool b => rfl
          | num n => rfl
          | str s => rfl
          | arr items => rfl

/-- C7 config: one override rule matching every model, setting `a.b`. -/
def cfgC7 : PayloadConfig :=
  { default := [],
    override := [{ models := [{ name := "*", protocol := none }],
                   params := [("a.b", Json.num 1)] }],
    filter := [] }

/-- C7 counterexample: on the body where `a` holds the number 5, the
matching override rule for path `a.b` is a no-op — the intermediate
component `a` is not an object — so nothing is set at `a.b`, while the
claim says a matching override rule always sets the path. -/
theorem C7_counterexample :
    apply_payload_rules (Json.obj [("a", Json.num 5)]) cfgC7 "m" (some "claude") =
      Json.obj [("a", Json.num 5)] ∧
    getPath (apply_payload_rules (Json.obj [("a", Json.num 5)]) cfgC7 "m"
        (some "claude")) "a.b" = none ∧
    (none : Option Json) ≠ some (Json.num 1) := by
  refine ⟨rfl, rfl, by simp⟩

/-- C7 (amended): defaults set a dotted path only when no value exists
there — an existing value is never overwritten, the write is a no-op; a
matching override rule sets the path whenever every existing
intermediate component is an object (missing intermediates are created),
and is a no-op otherwise; a filter removes the node at each listed path,
so nothing remains at that path afterwards. -/
theorem C7_payload_rules_amended :
    (∀ (body : Json) (path : String) (value w : Json),
        getPath body path = some w →
        set_nested body path value true = (body, false)) ∧
    (∀ (body : Json) (path : String) (value : Json),
        (pathSettable body (splitDots path) = true →
          (set_nested body path value false).2 = true ∧
          getPath (set_nested body path value false).1 path = some value) ∧
        (pathSettable body (splitDots path) = false →
          set_nested body path value false = (body, false))) ∧
    (∀ (body : Json) (path : String),
        getPath (remove_nested body path) path = none) := by
  refine ⟨?_, ?_, ?_⟩
  · intro body path value w h
    exact setNested_missing_noop (splitDots path) body value w h
  · intro body path value
    constructor
    · intro h
      exact setNested_settable_sets (splitDots path) body value h
    · intro h
      exact setNested_unsettable_noop (splitDots path) body value h
  · intro body path
    exact removeNested_removes (splitDots path) body (splitDots_ne_nil path)

/-- C7 witness: a default write on an existing `t` is a no-op, an
override on `a.b` over the empty object sets it, and a filter on `x`
removes it. -/
theorem C7_payload_rules_amended_witness :
    set_nested (Json.obj [("t", Json.num 5)]) "t" (Json.num 9) true =
      (Json.obj [("t", Json.num 5)], false) ∧
    ((set_nested (Json.obj []) "a.b" (Json.num 1) false).2 = true ∧
      getPath (set_nested (Json.obj []) "a.b" (Json.num 1) false).1 "a.b" =
        some (Json.num 1)) ∧
    getPath (remove_nested (Json.obj [("x", Json.num 2)]) "x") "x" = none :=
  ⟨C7_payload_rules_amended.1 (Json.obj [("t", Json.num 5)]) "t"
      (Json.num 9) (Json.num 5) rfl,
   (C7_payload_rules_amended.2.1 (Json.obj []) "a.b" (Json.num 1)).1 rfl,
   C7_payload_rules_amended.2.2 (Json.obj [("x", Json.num 2)]) "x"⟩

/-! ## Cloak engine — `src/crates/core/src/cloak.rs`

`apply_cloak` mutates a Claude request body: it injects or prepends the
Claude-Code identity system prompt, inserts a generated `metadata.user_id`,
and obfuscates sensitive words.  Two external effects become parameters:
the randomly generated user id (`userId`) and the compiled case-insensitive
regex replacement over one string (`obf`); the recursive walk deciding
which strings `obf` touches is embedded below.
-/

inductive CloakMode where
  | auto
  | always
  | never
deriving DecidableEq, Repr

structure CloakConfig where
  mode : CloakMode
  strict_mode : Bool
  sensitive_words : List String
  cache_user_id : Bool
deriving DecidableEq, Repr

/-- The Claude Code identity prompt (cloak.rs 48-50). -/
def CLOAK_SYSTEM_PROMPT : String :=
  "You are Claude Code, Anthropic\u0027s official CLI for Claude. " ++
  "You are an interactive agent specialized in software engineering tasks. " ++
  "You help users with coding, debugging, and software development."

/-- `should_cloak` (cloak.rs 53-64). -/
def should_cloak (cloak_cfg : CloakConfig) (user_agent : Option String) : Bool :=
  match cloak_cfg.mode with
  | .always => true
  | .never => false
  | .auto =>
      !(match user_agent with
        | some ua =>
            "claude-cli".toList.isPrefixOf ua.toList ||
            "claude-code".toList.isPrefixOf ua.toList
        | none => false)

mutual

/-- `obfuscate_in_value` (cloak.rs 160-180): apply `obf` to every string
reachable through arrays and through object values under keys named
`text` or `content`. -/
def obfuscate_in_value (obf : String → String) : Json → Json
  | .str s => .str (obf s)
  | .arr items => .arr (obfuscateList obf items)
  | .obj fields => .obj (obfuscateFields obf fields)
  | .null => .null
  | .bool b => .bool b
  | .num n => .num n

def obfuscateList (obf : String → String) : List Json → List Json
  | [] => []
  | j :: rest => obfuscate_in_value obf j :: obfuscateList obf rest

def obfuscateFields (obf : String → String) :
    List (String × Json) → List (String × Json)
  | [] => []
  | (k, v) :: rest =>
      (if k = "text" ∨ k = "content" then (k, obfuscate_in_value obf v)
       else (k, v)) :: obfuscateFields obf rest

end

/-- `obfuscate_sensitive_words` (cloak.rs 135-158): walk `messages` and
`system`.  The regex compilation (which cannot fail on escaped words) is
abstracted into `obf`. -/
def obfuscate_sensitive_words (obf : String → String) (body : Json)
    (words : List String) : Json :=
  if words.isEmpty then body
  else
    let body1 :=
      match body.getKey "messages" with
      | some m => body.setKey "messages" (obfuscate_in_value obf m)
      | none => body
    match body1.getKey "system" with
    | some s => body1.setKey "system" (obfuscate_in_value obf s)
    | none => body1

/-- Step 1 of `apply_cloak` (cloak.rs 98-117): inject or prepend the
identity system prompt. -/
def cloakSystem (body : Json) (strict_mode : Bool) : Json :=
  if strict_mode then
    body.setKey "system" (.str CLOAK_SYSTEM_PROMPT)
  else
    let existing := ((body.getKey "system").bind Json.asStr).getD ""
    let combined :=
      if existing = "" then CLOAK_SYSTEM_PROMPT
      else CLOAK_SYSTEM_PROMPT ++ "\n\n" ++ existing
    body.setKey "system" (.str combined)

/-- Step 2 of `apply_cloak` (cloak.rs 119-126): `entry("metadata")
.or_insert({})` then `user_id` insertion when the entry is an object. -/
def cloakMetadata (body : Json) (userId : String) : Json :=
  match body.getKey "metadata" with
  | none => body.setKey "metadata" (.obj [("user_id", .str userId)])
  | some meta =>
      match meta with
      | .obj mfields =>
          body.setKey "metadata" (.obj (objInsert mfields "user_id" (.str userId)))
      | _ => body

/-- `apply_cloak` (cloak.rs 92-132).  `userId` stands for
`generate_user_id(api_key, cache_user_id)`. -/
def apply_cloak (body : Json) (cloak_cfg : CloakConfig) (userId : String)
    (obf : String → String) : Json :=
  match body with
  | .obj _ =>
      let body2 := cloakMetadata (cloakSystem body cloak_cfg.strict_mode) userId
      if cloak_cfg.sensitive_words.isEmpty then body2
      else obfuscate_sensitive_words obf body2 cloak_cfg.sensitive_words
  | _ => body

/-! ## Claim C10 — non-string system values are discarded -/

lemma cloakSystem_nonstr (fields : List (String × Json)) (s : Json)
    (hsys : lookupField fields "system" = some s)
    (hnotstr : s.asStr = none) :
    cloakSystem (Json.obj fields) false =
      Json.obj (objInsert fields "system" (.str CLOAK_SYSTEM_PROMPT)) := by
  simp [cloakSystem, getKey_obj, hsys, hnotstr, Json.setKey]

lemma cloakMetadata_getKey_system (body : Json) (userId : String) :
    (cloakMetadata body userId).getKey "system" = body.getKey "system" := by
  unfold cloakMetadata
  cases hm : body.getKey "metadata" with
  | none =>
      cases body with
      | obj fields =>
          simp [Json.setKey, getKey_obj,
            lookupField_objInsert_ne fields "metadata" "system" _ (by decide)]
      | null => rfl
      | bool b => rfl
      | num n => rfl
      | str s => rfl
      | arr l => rfl
  | some meta =>
      cases meta with
      | obj mfields =>
          cases body with
          | obj fields =>
              simp [Json.setKey, getKey_obj,
                lookupField_objInsert_ne fields "metadata" "system" _ (by decide)]
          | null => rfl
          | bool b => rfl
          | num n => rfl
          | str s => rfl
          | arr l => rfl
      | null => rfl
      | bool b => rfl
      | num n => rfl
      | str s => rfl
      | arr l => rfl

/-- C10: in non-strict mode the prepend path reads the current system
value with `as_str`; a present but non-string `system` therefore reads
as the empty string and is replaced by exactly the identity prompt (the
original value is discarded, not prepended to).  With no sensitive words
configured the obfuscation phase is skipped, so the prompt is the exact
final value. -/
theorem C10_nonstring_system_discarded (fields : List (String × Json)) (s : Json)
    (cfg : CloakConfig) (userId : String) (obf : String → String)
    (hsys : lookupField fields "system" = some s)
    (hnotstr : s.asStr = none)
    (hstrict : cfg.strict_mode = false)
    (hwords : cfg.sensitive_words = []) :
    (apply_cloak (Json.obj fields) cfg userId obf).getKey "system" =
      some (Json.str CLOAK_SYSTEM_PROMPT) := by
  unfold apply_cloak
  rw [hstrict, hwords]
  simp only [List.isEmpty_nil, if_true]
  rw [cloakMetadata_getKey_system, cloakSystem_nonstr fields s hsys hnotstr,
    getKey_obj, lookupField_objInsert_self]

/-- C10 witness configuration: non-strict cloak with no sensitive words. -/
def cloakCfgC10 : CloakConfig :=
  { mode := .always, strict_mode := false, sensitive_words := [],
    cache_user_id := false }

/-- C10 witness: a `system` holding an array of content blocks is
replaced by exactly the identity prompt. -/
theorem C10_nonstring_system_discarded_witness :
    (apply_cloak (Json.obj [("system", Json.arr [Json.str "block"])])
        cloakCfgC10 "u" (fun s => s)).getKey "system" =
      some (Json.str CLOAK_SYSTEM_PROMPT) :=
  C10_nonstring_system_discarded [("system", Json.arr [Json.str "block"])]
    (Json.arr [Json.str "block"]) cloakCfgC10 "u" (fun s => s) rfl rfl rfl rfl

/-! ## OpenAI → Claude request translation —
`src/crates/translator/src/openai_to_claude.rs`

The request arrives already parsed (`serde_json::from_slice` failures are
upstream of the logic verified here).  The one remaining parse inside the
translator — `serde_json::from_str` on a tool call's embedded `arguments`
string — is kept abstract as the `parseArgs` parameter; the translation
uses it only in the assistant `tool_calls` branch.
-/

/-- The per-message contribution of `extract_system_messages`
(openai_to_claude.rs 70-92). -/
def systemPartsOfMsg (msg : Json) : List String :=
  if (msg.getKey "role").bind Json.asStr = some "system" then
    match msg.getKey "content" with
    | some (.str s) => [s]
    | some (.arr parts) =>
        parts.filterMap (fun part => (part.getKey "text").bind Json.asStr)
    | _ => []
  else []

/-- `extract_system_messages` (openai_to_claude.rs 70-92). -/
def extract_system_messages (req : Json) : String :=
  match (req.getKey "messages").bind Json.asArr with
  | some messages =>
      String.intercalate "\n\n" (messages.map systemPartsOfMsg).flatten
  | none => String.intercalate "\n\n" []

/-- `convert_image_url` (openai_to_claude.rs 234-260). -/
def convert_image_url (url : String) : Option Json :=
  let cs := url.toList
  if "data:".toList.isPrefixOf cs then
    let rest := cs.drop 5
    let meta := rest.takeWhile (fun c => c ≠ ',')
    let dataPart := rest.dropWhile (fun c => c ≠ ',')
    if dataPart ≠ [] then
      let media_type := meta.takeWhile (fun c => c ≠ ';')
      some (Json.obj [("type", .str "image"),
        ("source", Json.obj [("type", .str "base64"),
          ("media_type", .str (String.mk media_type)),
          ("data", .str (String.mk dataPart.tail))])])
    else
      some (Json.obj [("type", .str "image"),
        ("source", Json.obj [("type", .str "url"), ("url", .str url)])])
  else
    some (Json.obj [("type", .str "image"),
      ("source", Json.obj [("type", .str "url"), ("url", .str url)])])

/-- `convert_user_content` (openai_to_claude.rs 205-232). -/
def convert_user_content : Option Json → Json
  | some (.str s) => .str s
  | some (.arr parts) =>
      .arr (parts.foldl (fun blocks part =>
        let part_type := ((part.getKey "type").bind Json.asStr).getD ""
        if part_type = "text" then
          blocks ++ [Json.obj [("type", .str "text"),
            ("text", .str (((part.getKey "text").bind Json.asStr).getD ""))]]
        else if part_type = "image_url" then
          match part.getKey "image_url" with
          | some url_obj =>
              let url := ((url_obj.getKey "url").bind Json.asStr).getD ""
              match convert_image_url url with
              | some image_block => blocks ++ [image_block]
              | none => blocks
          | none => blocks
        else blocks) [])
  | _ => .str ""

/-- The `tool_result` block a `role == "tool"` message becomes
(openai_to_claude.rs 109-127). -/
def convert_tool_msg (msg : Json) : Json :=
  Json.obj [("type", .str "tool_result"),
    ("tool_use_id", .str (((msg.getKey "tool_call_id").bind Json.asStr).getD "")),
    ("content", .str (match msg.getKey "content" with
                      | some (.str s) => s
                      | _ => ""))]

/-- One iteration of the `convert_messages` loop
(openai_to_claude.rs 102-200), accumulating the Claude messages. -/
def convertMessagesStep (parseArgs : String → Option Json)
    (claude_messages : List Json) (msg : Json) : List Json :=
  let role := ((msg.getKey "role").bind Json.asStr).getD ""
  if role = "system" then claude_messages
  else if role = "tool" then
    let tool_result := convert_tool_msg msg
    let pushNew := claude_messages ++
      [Json.obj [("role", .str "user"), ("content", .arr [tool_result])]]
    match claude_messages.getLast? with
    | some last =>
        if (last.getKey "role").bind Json.asStr = some "user" then
          match last.getKey "content" with
          | some (.arr arr) =>
              claude_messages.dropLast ++
                [last.setKey "content" (.arr (arr ++ [tool_result]))]
          | _ => pushNew
        else pushNew
    | none => pushNew
  else if role = "assistant" then
    let content_blocks :=
      match msg.getKey "content" with
      | some (.str s) =>
          if s ≠ "" then [Json.obj [("type", .str "text"), ("text", .str s)]]
          else []
      | _ => []
    let content_blocks :=
      match (msg.getKey "tool_calls").bind Json.asArr with
      | some tool_calls =>
          content_blocks ++ tool_calls.map (fun tc =>
            let id := ((tc.getKey "id").bind Json.asStr).getD ""
            let name :=
              (((tc.getKey "function").bind (fun f => f.getKey "name")).bind
                Json.asStr).getD ""
            let arguments_str :=
              (((tc.getKey "function").bind (fun f => f.getKey "arguments")).bind
                Json.asStr).getD "\x7b\x7d"
            let input := (parseArgs arguments_str).getD (Json.obj [])
            Json.obj [("type", .str "tool_use"), ("id", .str id),
              ("name", .str name), ("input", input)])
      | none => content_blocks
    let content_blocks :=
      if content_blocks.isEmpty then
        [Json.obj [("type", .str "text"), ("text", .str "")]]
      else content_blocks
    claude_messages ++
      [Json.obj [("role", .str "assistant"), ("content", .arr content_blocks)]]
  else
    claude_messages ++
      [Json.obj [("role", .str "user"),
        ("content", convert_user_content (msg.getKey "content"))]]

/-- `convert_messages` (openai_to_claude.rs 94-203). -/
def convert_messages (parseArgs : String → Option Json) (req : Json) :
    Except String (List Json) :=
  match (req.getKey "messages").bind Json.asArr with
  | none => .error "missing messages field"
  | some messages => .ok (messages.foldl (convertMessagesStep parseArgs) [])

/-- `convert_tools` (openai_to_claude.rs 262-290). -/
def convert_tools (req : Json) : Option Json :=
  match (req.getKey "tools").bind Json.asArr with
  | none => none
  | some tools =>
      let claude_tools := tools.filterMap (fun tool =>
        match tool.getKey "function" with
        | none => none
        | some func =>
            match (func.getKey "name").bind Json.asStr with
            | none => none
            | some name =>
                let description :=
                  ((func.getKey "description").bind Json.asStr).getD ""
                let parameters := ((func.getKey "parameters").getD
                  (Json.obj [("type", .str "object"), ("properties", Json.obj [])]))
                some (Json.obj [("name", .str name),
                  ("description", .str description),
                  ("input_schema", parameters)]))
      if claude_tools.isEmpty then none else some (.arr claude_tools)

/-- `convert_stop_sequences` (openai_to_claude.rs 292-299). -/
def convert_stop_sequences (req : Json) : Option Json :=
  match req.getKey "stop" with
  | some (.str s) => some (.arr [.str s])
  | some (.arr l) => some (.arr l)
  | _ => none

/-- `convert_tool_choice` (openai_to_claude.rs 301-319). -/
def convert_tool_choice (tc : Json) : Json :=
  match tc with
  | .str s =>
      if s = "none" then Json.obj [("type", .str "none")]
      else if s = "auto" then Json.obj [("type", .str "auto")]
      else if s = "required" then Json.obj [("type", .str "any")]
      else Json.obj [("type", .str "auto")]
  | .obj fields =>
      match lookupField fields "function" with
      | some func =>
          match (func.getKey "name").bind Json.asStr with
          | some name => Json.obj [("type", .str "tool"), ("name", .str name)]
          | none => Json.obj [("type", .str "auto")]
      | none => Json.obj [("type", .str "auto")]
  | _ => Json.obj [("type", .str "auto")]

/-- `translate_request` (openai_to_claude.rs 4-68). -/
def translate_request (parseArgs : String → Option Json) (model : String)
    (req : Json) (stream : Bool) : Except String Json :=
  let system_text := extract_system_messages req
  match convert_messages parseArgs req with
  | .error e => .error e
  | .ok messages =>
      let tools := convert_tools req
      let mt0 :=
        match req.getKey "max_tokens" with
        | some v => some v
        | none => req.getKey "max_completion_tokens"
      let max_tokens := (mt0.bind Json.asU64).getD 8192
      let stop_sequences := convert_stop_sequences req
      let claude_req := Json.obj [("model", .str model),
        ("messages", .arr messages),
        ("max_tokens", .num (max_tokens : Int))]
      let claude_req :=
        if system_text ≠ "" then claude_req.setKey "system" (.str system_text)
        else claude_req
      let claude_req :=
        match req.getKey "temperature" with
        | some t => claude_req.setKey "temperature" t
        | none => claude_req
      let claude_req :=
        match req.getKey "top_p" with
        | some t => claude_req.setKey "top_p" t
        | none => claude_req
      let claude_req :=
        match tools with
        | some t => claude_req.setKey "tools" t
        | none => claude_req
      let claude_req :=
        match stop_sequences with
        | some t => claude_req.setKey "stop_sequences" t
        | none => claude_req
      let claude_req :=
        if stream then claude_req.setKey "stream" (.bool true) else claude_req
      let claude_req :=
        match req.getKey "thinking" with
        | some t => claude_req.setKey "thinking" t
        | none => claude_req
      let claude_req :=
        match req.getKey "tool_choice" with
        | some tc => claude_req.setKey "tool_choice" (convert_tool_choice tc)
        | none => claude_req
      .ok claude_req

/-! ## Claim C8 — system extraction into the Claude request -/

/-- The C8 input request. -/
def reqC8 : Json :=
  Json.obj [("model", .str "m"),
    ("messages", .arr [
      Json.obj [("role", .str "system"), ("content", .str "A")],
      Json.obj [("role", .str "system"), ("content", .str "B")],
      Json.obj [("role", .str "user"), ("content", .str "hi")]]),
    ("max_tokens", .num 100)]

/-- C8: translating the two-system-message OpenAI request to Claude
joins the system texts with a blank line, keeps only the user message,
and forwards `max_tokens`. -/
theorem C8_system_extraction :
    ∃ j, translate_request (fun _ => none) "m" reqC8 false = .ok j ∧
      j.getKey "system" = some (.str "A\n\nB") ∧
      j.getKey "messages" =
        some (.arr [Json.obj [("role", .str "user"), ("content", .str "hi")]]) ∧
      j.getKey "max_tokens" = some (.num 100) := by
  refine ⟨_, rfl, ?_, ?_, ?_⟩ <;> rfl

/-! ## Claude → OpenAI stream translation —
`src/crates/translator/src/claude_to_openai.rs`

`translate_stream` is a step function on `TranslateState`.  The event
data arrives parsed; `chrono::Utc::now().timestamp()` becomes the `now`
parameter.  The source returns `Vec<String>` where each element is a
serialized chunk or the `[DONE]` sentinel; serialization is left out, so
an output line is either a chunk value or the sentinel. -/

structure TranslateState where
  response_id : String
  model : String
  created : Int
  current_tool_call_index : Int
  current_content_index : Int
  sent_role : Bool
  input_tokens : Nat
deriving DecidableEq, Repr

/-- `TranslateState::default()`. -/
def TranslateState.initial : TranslateState :=
  { response_id := "", model := "", created := 0,
    current_tool_call_index := 0, current_content_index := 0,
    sent_role := false, input_tokens := 0 }

inductive OutLine where
  | done
  | chunk (j : Json)
deriving Repr

/-- The role chunk emitted on `message_start`
(claude_to_openai.rs 158-168). -/
def roleChunk (state : TranslateState) : Json :=
  Json.obj [("id", .str state.response_id),
    ("object", .str "chat.completion.chunk"),
    ("created", .num state.created), ("model", .str state.model),
    ("choices", .arr [Json.obj [("index", .num 0),
      ("delta", Json.obj [("role", .str "assistant"), ("content", .str "")]),
      ("finish_reason", .null)]])]

/-- The tool-call-start chunk (claude_to_openai.rs 191-211). -/
def toolStartChunk (state : TranslateState) (tc_id name : String) : Json :=
  Json.obj [("id", .str state.response_id),
    ("object", .str "chat.completion.chunk"),
    ("created", .num state.created), ("model", .str state.model),
    ("choices", .arr [Json.obj [("index", .num 0),
      ("delta", Json.obj [("tool_calls", .arr [Json.obj [
        ("index", .num state.current_tool_call_index),
        ("id", .str tc_id), ("type", .str "function"),
        ("function", Json.obj [("name", .str name),
          ("arguments", .str "")])]])]),
      ("finish_reason", .null)]])]

/-- The text-delta chunk (claude_to_openai.rs 223-234). -/
def contentChunk (state : TranslateState) (text : String) : Json :=
  Json.obj [("id", .str state.response_id),
    ("object", .str "chat.completion.chunk"),
    ("created", .num state.created), ("model", .str state.model),
    ("choices", .arr [Json.obj [("index", .num 0),
      ("delta", Json.obj [("content", .str text)]),
      ("finish_reason", .null)]])]

/-- The tool-arguments-delta chunk (claude_to_openai.rs 236-260). -/
def toolArgsChunk (state : TranslateState) (pj : String) : Json :=
  Json.obj [("id", .str state.response_id),
    ("object", .str "chat.completion.chunk"),
    ("created", .num state.created), ("model", .str state.model),
    ("choices", .arr [Json.obj [("index", .num 0),
      ("delta", Json.obj [("tool_calls", .arr [Json.obj [
        ("index", .num state.current_tool_call_index),
        ("function", Json.obj [("arguments", .str pj)])]])]),
      ("finish_reason", .null)]])]

/-- The finish-reason chunk before its optional usage
(claude_to_openai.rs 276-286). -/
def finishChunk (state : TranslateState) (finish_reason : String) : Json :=
  Json.obj [("id", .str state.response_id),
    ("object", .str "chat.completion.chunk"),
    ("created", .num state.created), ("model", .str state.model),
    ("choices", .arr [Json.obj [("index", .num 0),
      ("delta", Json.obj []),
      ("finish_reason", .str finish_reason)]])]

/-- The `stop_reason` → `finish_reason` map
(claude_to_openai.rs 268-274). -/
def mapStopReason : Option String → String
  | some "end_turn" => "stop"
  | some "max_tokens" => "length"
  | some "tool_use" => "tool_calls"
  | some "stop_sequence" => "stop"
  | _ => "stop"

/-- `translate_stream` (claude_to_openai.rs 124-316). -/
def translate_stream (now : Int) (event_type : Option String) (event : Json)
    (state : TranslateState) : List OutLine × TranslateState :=
  match event_type with
  | some "message_start" =>
      let state :=
        match event.getKey "message" with
        | some msg =>
            { state with
              response_id :=
                "chatcmpl-" ++ (((msg.getKey "id").bind Json.asStr).getD "unknown"),
              model := ((msg.getKey "model").bind Json.asStr).getD "unknown",
              created := now,
              current_content_index := -1,
              current_tool_call_index := -1,
              sent_role := false,
              input_tokens :=
                (((msg.getKey "usage").bind (fun u => u.getKey "input_tokens")).bind
                  Json.asU64).getD 0 }
        | none => state
      ([.chunk (roleChunk state)], { state with sent_role := true })
  | some "content_block_start" =>
      let state :=
        { state with current_content_index := state.current_content_index + 1 }
      match event.getKey "content_block" with
      | some cb =>
          let block_type := ((cb.getKey "type").bind Json.asStr).getD ""
          if block_type = "tool_use" then
            let state :=
              { state with
                current_tool_call_index := state.current_tool_call_index + 1 }
            let tc_id := ((cb.getKey "id").bind Json.asStr).getD ""
            let name := ((cb.getKey "name").bind Json.asStr).getD ""
            ([.chunk (toolStartChunk state tc_id name)], state)
          else ([], state)
      | none => ([], state)
  | some "content_block_delta" =>
      match event.getKey "delta" with
      | some delta =>
          let delta_type := ((delta.getKey "type").bind Json.asStr).getD ""
          if delta_type = "text_delta" then
            let text := ((delta.getKey "text").bind Json.asStr).getD ""
            ([.chunk (contentChunk state text)], state)
          else if delta_type = "input_json_delta" then
            let pj := ((delta.getKey "partial_json").bind Json.asStr).getD ""
            ([.chunk (toolArgsChunk state pj)], state)
          else ([], state)
      | none => ([], state)
  | some "message_delta" =>
      match event.getKey "delta" with
      | some delta =>
          let finish_reason :=
            mapStopReason ((delta.getKey "stop_reason").bind Json.asStr)
          let chunk := finishChunk state finish_reason
          let chunk :=
            match event.getKey "usage" with
            | some usage =>
                let output_tokens :=
                  ((usage.getKey "output_tokens").bind Json.asU64).getD 0
                chunk.setKey "usage" (Json.obj [
                  ("prompt_tokens", .num (state.input_tokens : Int)),
                  ("completion_tokens", .num (output_tokens : Int)),
                  ("total_tokens", .num ((state.input_tokens + output_tokens : Nat) : Int))])
            | none => chunk
          ([.chunk chunk], state)
      | none => ([], state)
  | some "message_stop" => ([.done], state)
  | _ => ([], state)

/-- Fold `translate_stream` over an event sequence from the default
state, concatenating the emitted lines. -/
def runTranslateStream (now : Int) (events : List (Option String × Json)) :
    List OutLine :=
  (events.foldl (fun (acc : List OutLine × TranslateState) ev =>
    let r := translate_stream now ev.1 ev.2 acc.2
    (acc.1 ++ r.1, r.2)) ([], TranslateState.initial)).1

/-! ## Claim C9 — stream lifecycle for a text response -/

def eventsC9 : List (Option String × Json) :=
  [(some "message_start", Json.obj [("type", .str "message_start"),
      ("message", Json.obj [("id", .str "msg_1"), ("model", .str "claude-m"),
        ("usage", Json.obj [("input_tokens", .num 7)])])]),
   (some "content_block_start", Json.obj [("index", .num 0),
      ("content_block", Json.obj [("type", .str "text")])]),
   (some "content_block_delta", Json.obj [("delta",
      Json.obj [("type", .str "text_delta"), ("text", .str "hi")])]),
   (some "message_delta", Json.obj [("delta",
      Json.obj [("stop_reason", .str "end_turn")]),
      ("usage", Json.obj [("output_tokens", .num 3)])]),
   (some "message_stop", Json.obj [("type", .str "message_stop")])]

/-- State after the C9 `message_start`. -/
def stateC9 : TranslateState :=
  { response_id := "chatcmpl-msg_1", model := "claude-m", created := 1234,
    current_tool_call_index := -1, current_content_index := -1,
    sent_role := false, input_tokens := 7 }

/-- C9: the five-event Claude stream yields exactly the role chunk, the
`hi` content chunk, the finish chunk with `finish_reason:"stop"` and
usage 7/3/10, and the `[DONE]` sentinel — the text
`content_block_start` contributes nothing, and a `ping` event produces
no output. -/
theorem C9_stream_lifecycle :
    runTranslateStream 1234 eventsC9 =
      [.chunk (roleChunk stateC9),
       .chunk (contentChunk { stateC9 with
          current_content_index := 0, sent_role := true } "hi"),
       .chunk ((finishChunk { stateC9 with
          current_content_index := 0, sent_role := true } "stop").setKey "usage"
         (Json.obj [("prompt_tokens", .num 7), ("completion_tokens", .num 3),
           ("total_tokens", .num 10)])),
       .done] ∧
    translate_stream 1234 (some "ping") (Json.obj [("type", .str "ping")])
        stateC9 = ([], stateC9) := by
  exact ⟨rfl, rfl⟩

end AiProxy
